import Mathlib

/-! Verification of the generated Go binding `sdk/go/aws-iam/policy.go`.

The file embeds the constructor `NewPolicy`, the reflected element types of
the adapter families, the identity conversions of the output adapters and
the two lookup callbacks (`Index`, `MapIndex`) of `policy.go`.

Conventions of the embedding:

* a Go pointer or interface value is an `Option`; `none` is Go's `nil`;
* a Go `error` result is an `Option GoError`; `none` is the nil error;
* a Go function with a side effect on the host engine threads the engine's
  `pulumi.Context` explicitly; the context records every registration call it
  receives, so that "how many calls were made" is a statement about a list;
* a Go run-time panic inside a deferred callback is an `Except Fault _`.

The host SDK (`github.com/pulumi/pulumi/sdk/v3/go/pulumi`) is not part of the
repository.  Its registration operation is a parameter of the `pulumi.Context`
(an arbitrary reply function), and its deferred values are modelled by their
eventual outcome, with `All` as "zip" and `ApplyT` as "map".  The host does
not recover a panic of an applier, so the value that the applier feeds never
settles.  The registry of wrapper types, which `init` fills, decides the
type assertion that closes `Index`.
-/

namespace AwsIam

/-! ## Go run-time layer -/

/-- Go `error` values.  `Error` is the text that the method `Error()` yields. -/
structure GoError where
  Error : String
  deriving DecidableEq, Repr

/-- `errors.New(message)` of `github.com/pkg/errors`. -/
def errors.New (message : String) : GoError :=
  { Error := message }

/-- Type descriptors, as `reflect.Type` shows them.  A declared type is named;
the composite kinds used by `policy.go` are pointer, slice and map. -/
inductive GoType where
  | string : GoType
  | int : GoType
  | named (name : String) : GoType
  | ptr (elem : GoType) : GoType
  | slice (elem : GoType) : GoType
  | map (key elem : GoType) : GoType
  deriving DecidableEq, Repr

/-- `reflect.Type.Elem()`: the element type of a pointer, slice or map.  Go
panics on every other kind, here `none`. -/
def GoType.Elem : GoType → Option GoType
  | .ptr e => some e
  | .slice e => some e
  | .map _ e => some e
  | _ => none

/-- `reflect.TypeOf((*T)(nil))`: the type of a typed nil pointer to `T`. -/
def reflect.TypeOfNilPtr (T : GoType) : GoType :=
  .ptr T

/-- Faults: the run-time panics a callback of `policy.go` can raise, a
rejection inherited from an upstream value, and the two panics of start-up
registration (`Elem` on a type without element, a type registered twice). -/
inductive Fault where
  | indexOutOfRange (index : Int) (length : Nat) : Fault
  | interfaceConversion : Fault
  | rejected (e : GoError) : Fault
  | reflectElem : Fault
  | alreadyRegistered (t : GoType) : Fault
  deriving DecidableEq, Repr

/-! ## Host SDK values that `policy.go` handles -/

/-- The eventual state of a deferred value of the host SDK. -/
inductive Outcome (α : Type) where
  | pending : Outcome α
  | fault (f : Fault) : Outcome α
  | resolved (v : α) : Outcome α
  deriving DecidableEq, Repr

/-- `pulumi.StringInput`: a plain string (`pulumi.String`) or a deferred
string (`pulumi.StringOutput`). -/
inductive pulumi.StringInput where
  | plain (s : String) : pulumi.StringInput
  | output (o : Outcome String) : pulumi.StringInput
  deriving DecidableEq, Repr

/-- `pulumi.StringPtrInput`: an optional string (`pulumi.StringPtr`) or a
deferred one (`pulumi.StringPtrOutput`). -/
inductive pulumi.StringPtrInput where
  | plain (s : Option String) : pulumi.StringPtrInput
  | output (o : Outcome (Option String)) : pulumi.StringPtrInput
  deriving DecidableEq, Repr

/-- `pulumi.IntInput`: a plain `int` (`pulumi.Int`) or a deferred `int`
(`pulumi.IntOutput`). -/
inductive pulumi.IntInput where
  | plain (i : Int) : pulumi.IntInput
  | output (o : Outcome Int) : pulumi.IntInput
  deriving DecidableEq, Repr

/-- `pulumi.ResourceOption`: opaque to the binding. -/
structure pulumi.ResourceOption where
  ident : String
  deriving DecidableEq, Repr

/-- `pulumi.ResourceState`: opaque to the binding; the host writes it through
the pointer it receives at registration. -/
structure pulumi.ResourceState where
  urn : String
  deriving DecidableEq, Repr

/-! ## Declarations of `policy.go` -/

/-- `type Policy struct { pulumi.ResourceState }`. -/
structure Policy where
  ResourceState : pulumi.ResourceState
  deriving DecidableEq, Repr

/-- The zero value of `Policy`, as `var resource Policy` creates it. -/
def Policy.zero : Policy :=
  { ResourceState := { urn := "" } }

/-- A `*Policy`; `none` is the nil pointer. -/
abbrev PolicyPtr := Option Policy

/-- `type PolicyArgs struct`: four interface-typed fields, each possibly nil. -/
structure PolicyArgs where
  Description : Option pulumi.StringPtrInput
  Name : Option pulumi.StringInput
  Name_suffix : Option pulumi.StringPtrInput
  Policy_statements : Option pulumi.StringPtrInput
  deriving DecidableEq, Repr

/-- One invocation of `ctx.RegisterRemoteComponentResource(t, name, args,
&resource, opts...)`, with the resource as it stands before the call. -/
structure RegisterCall where
  t : String
  name : String
  args : PolicyArgs
  resource : Policy
  opts : List pulumi.ResourceOption
  deriving DecidableEq, Repr

/-- `*pulumi.Context`.  `reply` is the host's behaviour: from the calls seen
so far and the present call, the state written through `&resource` and the
returned error.  `calls` is the record of the calls received. -/
structure pulumi.Context where
  reply : List RegisterCall → RegisterCall → pulumi.ResourceState × Option GoError
  calls : List RegisterCall

/-- `ctx.RegisterRemoteComponentResource`: the call is recorded, the host
writes the resource state and returns its error. -/
def pulumi.Context.RegisterRemoteComponentResource (ctx : pulumi.Context) (t name : String)
    (args : PolicyArgs) (resource : Policy) (opts : List pulumi.ResourceOption) :
    pulumi.Context × Policy × Option GoError :=
  let call : RegisterCall :=
    { t := t, name := name, args := args, resource := resource, opts := opts }
  let r := ctx.reply ctx.calls call
  ({ ctx with calls := ctx.calls ++ [call] }, { resource with ResourceState := r.1 }, r.2)

/-- `NewPolicy(ctx, name, args, opts...)`, lines 19-34.  The result is the
context after the call, the returned `*Policy` and the returned `error`. -/
def NewPolicy (ctx : pulumi.Context) (name : String) (args : Option PolicyArgs)
    (opts : List pulumi.ResourceOption) : pulumi.Context × PolicyPtr × Option GoError :=
  match args with
  | none => (ctx, none, some (errors.New "missing one or more required arguments"))
  | some a =>
    if a.Name = none then
      (ctx, none, some (errors.New "invalid value for required argument 'Name'"))
    else
      let resource : Policy := Policy.zero
      let r := ctx.RegisterRemoteComponentResource "aws-iam:index:Policy" name a resource opts
      match r.2.2 with
      | some err => (r.1, none, some err)
      | none => (r.1, some r.2.1, none)

/-- The error kind the specification calls `MissingArguments`. -/
def MissingArguments : GoError :=
  errors.New "missing one or more required arguments"

/-- The error kind the specification calls `MissingRequiredField(field)`. -/
def MissingRequiredField (field : String) : GoError :=
  errors.New ("invalid value for required argument '" ++ field ++ "'")

/-! ### The wire-level argument record and reflected element types -/

/-- One field of a Go struct declaration; `tag` is the value of its
`pulumi:"..."` tag. -/
structure StructField where
  name : String
  type : GoType
  tag : String
  deriving DecidableEq, Repr

/-- A Go struct type declaration. -/
structure StructDecl where
  name : String
  fields : List StructField
  deriving DecidableEq, Repr

/-- The type that a struct declaration introduces. -/
def StructDecl.type (d : StructDecl) : GoType :=
  .named d.name

/-- `type policyArgs struct`, lines 36-45. -/
def policyArgs : StructDecl :=
  { name := "policyArgs"
    fields :=
      [ { name := "Description", type := .ptr .string, tag := "description" },
        { name := "Name", type := .string, tag := "name" },
        { name := "Name_suffix", type := .ptr .string, tag := "name_suffix" },
        { name := "Policy_statements", type := .ptr .string, tag := "policy_statements" } ] }

/-- The declared type `Policy`. -/
def Policy.type : GoType :=
  .named "Policy"

/-- `func (PolicyArgs) ElementType()`, lines 59-61. -/
def PolicyArgs.ElementType (_ : PolicyArgs) : Option GoType :=
  (reflect.TypeOfNilPtr policyArgs.type).Elem

/-- A Go `map[string]T`: finitely many entries with pairwise distinct keys. -/
structure GoMap (β : Type) where
  entries : List (String × β)
  nodup : (entries.map Prod.fst).Nodup

/-- The map expression `m[k]`: the stored value, or `zero` for a missing key. -/
def GoMap.index {β : Type} (m : GoMap β) (k : String) (zero : β) : β :=
  match m.entries.lookup k with
  | some v => v
  | none => zero

/-- The slice expression `s[i]` with a Go `int` index: a run-time panic
unless `0 <= i < len(s)`. -/
def sliceIndex {α : Type} (s : List α) (i : Int) : Except Fault α :=
  if h : 0 ≤ i ∧ i.toNat < s.length then
    .ok (s.get ⟨i.toNat, h.2⟩)
  else
    .error (.indexOutOfRange i s.length)

/-- `type PolicyOutput struct{ *pulumi.OutputState }`: resolves to a `*Policy`. -/
structure PolicyOutput where
  OutputState : Outcome PolicyPtr
  deriving DecidableEq, Repr

/-- `type PolicyArrayOutput struct{ *pulumi.OutputState }`: resolves to a
`[]*Policy`. -/
structure PolicyArrayOutput where
  OutputState : Outcome (List PolicyPtr)
  deriving DecidableEq, Repr

/-- `type PolicyMapOutput struct{ *pulumi.OutputState }`: resolves to a
`map[string]*Policy`. -/
structure PolicyMapOutput where
  OutputState : Outcome (GoMap PolicyPtr)

/-- `type PolicyInput interface`: implemented by `*Policy` and `PolicyOutput`. -/
inductive PolicyInput where
  | Policy (i : PolicyPtr) : PolicyInput
  | PolicyOutput (o : PolicyOutput) : PolicyInput
  deriving DecidableEq, Repr

/-- `type PolicyArray []PolicyInput`; an element may be the nil interface. -/
abbrev PolicyArray := List (Option PolicyInput)

/-- `type PolicyMap map[string]PolicyInput`. -/
abbrev PolicyMap := GoMap (Option PolicyInput)

/-- `context.Context` of the Go standard library: opaque to the binding. -/
structure context.Context where
  ident : String
  deriving DecidableEq, Repr

/-- `func (*Policy) ElementType()`, lines 70-72. -/
def Policy.ElementType (_ : PolicyPtr) : Option GoType :=
  (reflect.TypeOfNilPtr (.ptr Policy.type)).Elem

/-- `func (PolicyArray) ElementType()`, lines 95-97. -/
def PolicyArray.ElementType (_ : PolicyArray) : Option GoType :=
  (reflect.TypeOfNilPtr (.slice (.ptr Policy.type))).Elem

/-- `func (PolicyMap) ElementType()`, lines 120-122. -/
def PolicyMap.ElementType (_ : PolicyMap) : Option GoType :=
  (reflect.TypeOfNilPtr (.map .string (.ptr Policy.type))).Elem

/-- `func (PolicyOutput) ElementType()`, lines 134-136. -/
def PolicyOutput.ElementType (_ : PolicyOutput) : Option GoType :=
  (reflect.TypeOfNilPtr (.ptr Policy.type)).Elem

/-- `func (o PolicyOutput) ToPolicyOutput()`, lines 138-140. -/
def PolicyOutput.ToPolicyOutput (o : PolicyOutput) : PolicyOutput :=
  o

/-- `func (o PolicyOutput) ToPolicyOutputWithContext(ctx)`, lines 142-144. -/
def PolicyOutput.ToPolicyOutputWithContext (o : PolicyOutput) (_ctx : context.Context) :
    PolicyOutput :=
  o

/-- `func (PolicyArrayOutput) ElementType()`, lines 148-150. -/
def PolicyArrayOutput.ElementType (_ : PolicyArrayOutput) : Option GoType :=
  (reflect.TypeOfNilPtr (.slice (.ptr Policy.type))).Elem

/-- `func (o PolicyArrayOutput) ToPolicyArrayOutput()`, lines 152-154. -/
def PolicyArrayOutput.ToPolicyArrayOutput (o : PolicyArrayOutput) : PolicyArrayOutput :=
  o

/-- `func (o PolicyArrayOutput) ToPolicyArrayOutputWithContext(ctx)`, lines
156-158. -/
def PolicyArrayOutput.ToPolicyArrayOutputWithContext (o : PolicyArrayOutput)
    (_ctx : context.Context) : PolicyArrayOutput :=
  o

/-- `func (PolicyMapOutput) ElementType()`, lines 168-170. -/
def PolicyMapOutput.ElementType (_ : PolicyMapOutput) : Option GoType :=
  (reflect.TypeOfNilPtr (.map .string (.ptr Policy.type))).Elem

/-- `func (o PolicyMapOutput) ToPolicyMapOutput()`, lines 172-174. -/
def PolicyMapOutput.ToPolicyMapOutput (o : PolicyMapOutput) : PolicyMapOutput :=
  o

/-- `func (o PolicyMapOutput) ToPolicyMapOutputWithContext(ctx)`, lines
176-178. -/
def PolicyMapOutput.ToPolicyMapOutputWithContext (o : PolicyMapOutput)
    (_ctx : context.Context) : PolicyMapOutput :=
  o

/-! ### Deferred lookups -/

/-- A Go `interface{}` holding one of the values that reach the callbacks. -/
inductive Value where
  | policy (p : PolicyPtr) : Value
  | policySlice (s : List PolicyPtr) : Value
  | policyMap (m : GoMap PolicyPtr) : Value
  | int (i : Int) : Value
  | string (s : String) : Value

/-- The eventual state of a deferred value after a change of representation. -/
def Outcome.cast {α β : Type} (f : α → β) : Outcome α → Outcome β
  | .pending => .pending
  | .fault e => .fault e
  | .resolved v => .resolved (f v)

/-- What a `pulumi.IntInput` resolves to. -/
def pulumi.IntInput.await : pulumi.IntInput → Outcome Int
  | .plain i => .resolved i
  | .output o => o

/-- What a `pulumi.StringInput` resolves to. -/
def pulumi.StringInput.await : pulumi.StringInput → Outcome String
  | .plain s => .resolved s
  | .output o => o

/-- One input of `pulumi.All` joined with the result for the inputs after
it: unsettled while either is unsettled; otherwise the earlier rejection, or
else the value put in front of the later values. -/
def pulumi.All.join (o : Outcome Value) (rest : Outcome (List Value)) : Outcome (List Value) :=
  match o, rest with
  | .pending, _ => .pending
  | .fault _, .pending => .pending
  | .fault e, .fault _ => .fault e
  | .fault e, .resolved _ => .fault e
  | .resolved _, .pending => .pending
  | .resolved _, .fault e => .fault e
  | .resolved v, .resolved vs => .resolved (v :: vs)

/-- `pulumi.All(inputs...)`: every input is awaited before anything is
reported.  While an input never settles, neither does the result; once all
have settled, the result is the first rejection in order, or else the list of
the values. -/
def pulumi.All (inputs : List (Outcome Value)) : Outcome (List Value) :=
  inputs.foldr pulumi.All.join (.resolved [])

/-- `o.ApplyT(applier)`: once `o` has resolved, the host runs the applier on
the value in a goroutine of its own.  The host does not recover a panic of
the applier: the process aborts, and the result is never settled, neither
with a value nor with a rejection. -/
def pulumi.ApplyT {α β : Type} (o : Outcome α) (applier : α → Except Fault β) : Outcome β :=
  match o with
  | .pending => .pending
  | .fault e => .fault e
  | .resolved v =>
    match applier v with
    | .ok r => .resolved r
    | .error _ => .pending

/-- The type assertion `v.([]*Policy)`. -/
def Value.assertPolicySlice : Value → Except Fault (List PolicyPtr)
  | .policySlice s => .ok s
  | _ => .error .interfaceConversion

/-- The type assertion `v.(map[string]*Policy)`. -/
def Value.assertPolicyMap : Value → Except Fault (GoMap PolicyPtr)
  | .policyMap m => .ok m
  | _ => .error .interfaceConversion

/-- The type assertion `v.(int)`. -/
def Value.assertInt : Value → Except Fault Int
  | .int i => .ok i
  | _ => .error .interfaceConversion

/-- The type assertion `v.(string)`. -/
def Value.assertString : Value → Except Fault String
  | .string s => .ok s
  | _ => .error .interfaceConversion

/-- The function literal of `Index`, line 161-163:
`vs[0].([]*Policy)[vs[1].(int)]`. -/
def PolicyArrayOutput.Index.func1 (vs : List Value) : Except Fault PolicyPtr := do
  let s ← (← sliceIndex vs 0).assertPolicySlice
  let i ← (← sliceIndex vs 1).assertInt
  sliceIndex s i

/-- `func (o PolicyArrayOutput) Index(i pulumi.IntInput) PolicyOutput`, lines
160-164: the deferred value that the call builds.  The closing assertion
`.(PolicyOutput)`, which is the step evaluated at the call itself, is
`PolicyArrayOutput.Index.call`. -/
def PolicyArrayOutput.Index (o : PolicyArrayOutput) (i : pulumi.IntInput) : PolicyOutput :=
  { OutputState :=
      pulumi.ApplyT
        (pulumi.All [o.OutputState.cast Value.policySlice, i.await.cast Value.int])
        PolicyArrayOutput.Index.func1 }

/-- The function literal of `MapIndex`, lines 181-183:
`vs[0].(map[string]*Policy)[vs[1].(string)]`. -/
def PolicyMapOutput.MapIndex.func1 (vs : List Value) : Except Fault PolicyPtr := do
  let m ← (← sliceIndex vs 0).assertPolicyMap
  let k ← (← sliceIndex vs 1).assertString
  pure (m.index k none)

/-- `func (o PolicyMapOutput) MapIndex(k pulumi.StringInput) PolicyOutput`,
lines 180-184; the closing assertion `.(PolicyOutput)` is treated as in
`Index`. -/
def PolicyMapOutput.MapIndex (o : PolicyMapOutput) (k : pulumi.StringInput) : PolicyOutput :=
  { OutputState :=
      pulumi.ApplyT
        (pulumi.All [o.OutputState.cast Value.policyMap, k.await.cast Value.string])
        PolicyMapOutput.MapIndex.func1 }

/-! ### Start-up registration and the call of `Index` -/

/-- The wrapper types of deferred values: the three that `policy.go` declares
and the host's `pulumi.AnyOutput`. -/
inductive OutputType where
  | PolicyOutput : OutputType
  | PolicyArrayOutput : OutputType
  | PolicyMapOutput : OutputType
  | AnyOutput : OutputType
  deriving DecidableEq, Repr

/-- The host's process-wide registry: each input interface type with its
concrete type, and each element type with its output wrapper.  The entry
added last stands first. -/
structure pulumi.Registry where
  inputTypes : List (GoType × GoType)
  outputTypes : List (GoType × OutputType)
  deriving DecidableEq, Repr

/-- `pulumi.RegisterInputType(interfaceType, input)`: the concrete type of
`input` is recorded under the interface type; the host panics when the
interface type has an entry already. -/
def pulumi.RegisterInputType (r : pulumi.Registry) (interfaceType : Option GoType)
    (concreteType : GoType) : Except Fault pulumi.Registry :=
  match interfaceType with
  | none => .error .reflectElem
  | some t =>
    match r.inputTypes.lookup t with
    | some _ => .error (.alreadyRegistered t)
    | none => .ok { r with inputTypes := (t, concreteType) :: r.inputTypes }

/-- `pulumi.RegisterOutputType(output)`: the wrapper type of `output` is
recorded under `output.ElementType()`; the host panics when the element type
has an entry already. -/
def pulumi.RegisterOutputType (r : pulumi.Registry) (wrapper : OutputType)
    (elementType : Option GoType) : Except Fault pulumi.Registry :=
  match elementType with
  | none => .error .reflectElem
  | some t =>
    match r.outputTypes.lookup t with
    | some _ => .error (.alreadyRegistered t)
    | none => .ok { r with outputTypes := (t, wrapper) :: r.outputTypes }

/-- The zero value `PolicyOutput{}`: no state behind it, so it never settles. -/
def PolicyOutput.zero : PolicyOutput :=
  { OutputState := .pending }

/-- The zero value `PolicyArrayOutput{}`. -/
def PolicyArrayOutput.zero : PolicyArrayOutput :=
  { OutputState := .pending }

/-- The zero value `PolicyMapOutput{}`. -/
def PolicyMapOutput.zero : PolicyMapOutput :=
  { OutputState := .pending }

/-- `func init()`, lines 186-193, on the registry as the process has it when
the package is loaded. -/
def init (r : pulumi.Registry) : Except Fault pulumi.Registry := do
  let r ← pulumi.RegisterInputType r (reflect.TypeOfNilPtr (.named "PolicyInput")).Elem
    (.ptr Policy.type)
  let r ← pulumi.RegisterInputType r (reflect.TypeOfNilPtr (.named "PolicyArrayInput")).Elem
    (.named "PolicyArray")
  let r ← pulumi.RegisterInputType r (reflect.TypeOfNilPtr (.named "PolicyMapInput")).Elem
    (.named "PolicyMap")
  let r ← pulumi.RegisterOutputType r .PolicyOutput PolicyOutput.zero.ElementType
  let r ← pulumi.RegisterOutputType r .PolicyArrayOutput PolicyArrayOutput.zero.ElementType
  pulumi.RegisterOutputType r .PolicyMapOutput PolicyMapOutput.zero.ElementType

/-- The wrapper in which the host's `ApplyT` returns the deferred result of
an applier whose result type is `resultType`: the wrapper registered for that
type, or `pulumi.AnyOutput` when there is none. -/
def pulumi.ApplyT.outputType (r : pulumi.Registry) (resultType : GoType) : OutputType :=
  match r.outputTypes.lookup resultType with
  | some wrapper => wrapper
  | none => .AnyOutput

/-- The statement `return pulumi.All(o, i).ApplyT(...).(PolicyOutput)`, line
161-163, as the call of `Index` evaluates it in a process whose registry is
`r`.  `All` and `ApplyT` build the deferred value without running the
function literal, whose result type is `*Policy`; the type assertion then
panics, at the call, unless the host has wrapped that value in a
`PolicyOutput`. -/
def PolicyArrayOutput.Index.call (r : pulumi.Registry) (o : PolicyArrayOutput)
    (i : pulumi.IntInput) : Except Fault PolicyOutput :=
  match pulumi.ApplyT.outputType r (.ptr Policy.type) with
  | .PolicyOutput => .ok (o.Index i)
  | _ => .error .interfaceConversion

/-- A registry that holds no entry yet. -/
def pulumi.Registry.empty : pulumi.Registry :=
  { inputTypes := [], outputTypes := [] }

/-! ## Test data -/

/-- A handle `A`. -/
def handleA : PolicyPtr :=
  some { ResourceState := { urn := "urn:A" } }

/-- A handle `B`. -/
def handleB : PolicyPtr :=
  some { ResourceState := { urn := "urn:B" } }

/-- The mapping `{"x": A}`. -/
def mapXA : GoMap PolicyPtr :=
  { entries := [("x", handleA)], nodup := by decide }

/-- An argument record in which only `Name` is set. -/
def argsNameOnly : PolicyArgs :=
  { Description := none, Name := some (.plain "reader"), Name_suffix := none,
    Policy_statements := none }

/-- An argument record in which everything but `Name` is set. -/
def argsNoName : PolicyArgs :=
  { Description := some (.plain (some "d")), Name := none,
    Name_suffix := some (.plain (some "s")),
    Policy_statements := some (.plain (some "\x7b\x7d")) }

/-- A host that accepts every registration. -/
def ctxAccepting : pulumi.Context :=
  { reply := fun _ call => ({ urn := "urn:" ++ call.name }, none), calls := [] }

/-- A host that rejects every registration. -/
def ctxRejecting : pulumi.Context :=
  { reply := fun _ _ => ({ urn := "" }, some (errors.New "duplicate resource")), calls := [] }

/-! ## The constructor -/

/-- The registration call that `NewPolicy ctx name (some a) opts` issues. -/
def NewPolicy.call (name : String) (a : PolicyArgs) (opts : List pulumi.ResourceOption) :
    RegisterCall :=
  { t := "aws-iam:index:Policy", name := name, args := a, resource := Policy.zero, opts := opts }

/-- After a call that passes validation the context has recorded the one
registration call of `NewPolicy`, whatever the host answered. -/
theorem NewPolicy_calls (ctx : pulumi.Context) (name : String) (a : PolicyArgs)
    (opts : List pulumi.ResourceOption) (hName : a.Name ≠ none) :
    (NewPolicy ctx name (some a) opts).1.calls = ctx.calls ++ [NewPolicy.call name a opts] := by
  unfold NewPolicy
  simp only [hName, if_false]
  cases h : (ctx.reply ctx.calls (NewPolicy.call name a opts)).2 <;>
    simp [pulumi.Context.RegisterRemoteComponentResource, NewPolicy.call] at h ⊢ <;>
    simp [h]

/-- C1.  With a nil argument record `NewPolicy` returns the nil handle and the
`MissingArguments` error, whose text is "missing one or more required
arguments", and the context has received no registration call: its record of
calls is the one it had before. -/
theorem NewPolicy_nil_args (ctx : pulumi.Context) (name : String)
    (opts : List pulumi.ResourceOption) :
    (NewPolicy ctx name none opts).2.1 = none ∧
      (NewPolicy ctx name none opts).2.2 = some MissingArguments ∧
      MissingArguments.Error = "missing one or more required arguments" ∧
      (NewPolicy ctx name none opts).1.calls = ctx.calls :=
  ⟨rfl, rfl, rfl, rfl⟩

/-- C2.  With an argument record whose `Name` is nil, whatever the other
three fields hold, `NewPolicy` returns the nil handle and the
`MissingRequiredField("Name")` error, whose text is "invalid value for
required argument 'Name'", and the context has received no registration
call. -/
theorem NewPolicy_nil_Name (ctx : pulumi.Context) (name : String) (a : PolicyArgs)
    (opts : List pulumi.ResourceOption) (hName : a.Name = none) :
    (NewPolicy ctx name (some a) opts).2.1 = none ∧
      (NewPolicy ctx name (some a) opts).2.2 = some (MissingRequiredField "Name") ∧
      (MissingRequiredField "Name").Error = "invalid value for required argument 'Name'" ∧
      (NewPolicy ctx name (some a) opts).1.calls = ctx.calls := by
  have hErr : MissingRequiredField "Name" =
      errors.New "invalid value for required argument 'Name'" := by decide
  simp [NewPolicy, hName, hErr, errors.New]

/-- Witness of C2: every field but `Name` is set, and the host, which would
reject, is never asked. -/
theorem NewPolicy_nil_Name_witness :
    argsNoName.Name = none ∧
      (NewPolicy ctxRejecting "p" (some argsNoName) []).2.1 = none ∧
      (NewPolicy ctxRejecting "p" (some argsNoName) []).2.2 =
        some (MissingRequiredField "Name") ∧
      (MissingRequiredField "Name").Error = "invalid value for required argument 'Name'" ∧
      (NewPolicy ctxRejecting "p" (some argsNoName) []).1.calls = ctxRejecting.calls :=
  ⟨rfl, NewPolicy_nil_Name ctxRejecting "p" argsNoName [] rfl⟩

/-- C3.  With a non-nil argument record whose `Name` is non-nil, the context
receives exactly one registration call more than it had, and that call
carries the type identifier "aws-iam:index:Policy", the instance name, the
argument record as given and the options in the order given. -/
theorem NewPolicy_registers_once (ctx : pulumi.Context) (name : String) (a : PolicyArgs)
    (opts : List pulumi.ResourceOption) (hName : a.Name ≠ none) :
    (NewPolicy ctx name (some a) opts).1.calls =
      ctx.calls ++
        [{ t := "aws-iam:index:Policy", name := name, args := a, resource := Policy.zero,
           opts := opts }] := by
  exact NewPolicy_calls ctx name a opts hName

/-- Witness of C3: two options, kept in order. -/
theorem NewPolicy_registers_once_witness :
    argsNameOnly.Name ≠ none ∧
      (NewPolicy ctxAccepting "p" (some argsNameOnly) [⟨"parent"⟩, ⟨"provider"⟩]).1.calls =
        [{ t := "aws-iam:index:Policy", name := "p", args := argsNameOnly,
           resource := Policy.zero, opts := [⟨"parent"⟩, ⟨"provider"⟩] }] :=
  ⟨by decide, NewPolicy_registers_once ctxAccepting "p" argsNameOnly _ (by decide)⟩

/-- C4.  For a call that passes validation, let `reply` be what the host
answers to the registration call.  If the host returns an error `e`, then
`NewPolicy` returns the nil handle and `e` itself; if the host returns no
error, then `NewPolicy` returns the handle of the resource that the host
wrote, which is non-nil, and the nil error.  In both cases exactly one of
handle and error is non-nil, and the host was called once, not again. -/
theorem NewPolicy_propagates_result (ctx : pulumi.Context) (name : String) (a : PolicyArgs)
    (opts : List pulumi.ResourceOption) (hName : a.Name ≠ none) :
    let reply := ctx.reply ctx.calls (NewPolicy.call name a opts)
    let handle := (NewPolicy ctx name (some a) opts).2.1
    let err := (NewPolicy ctx name (some a) opts).2.2
    (∀ e, reply.2 = some e → handle = none ∧ err = some e) ∧
      (reply.2 = none → handle = some { ResourceState := reply.1 } ∧ err = none) ∧
      ((handle = none ∧ err ≠ none) ∨ (handle ≠ none ∧ err = none)) ∧
      (NewPolicy ctx name (some a) opts).1.calls =
        ctx.calls ++ [NewPolicy.call name a opts] := by
  intro reply handle err
  suffices hMain : (∀ e, reply.2 = some e → handle = none ∧ err = some e) ∧
      (reply.2 = none → handle = some { ResourceState := reply.1 } ∧ err = none) ∧
      ((handle = none ∧ err ≠ none) ∨ (handle ≠ none ∧ err = none)) from
    ⟨hMain.1, hMain.2.1, hMain.2.2, NewPolicy_calls ctx name a opts hName⟩
  have hCases : (∃ e, reply.2 = some e ∧ handle = none ∧ err = some e) ∨
      (reply.2 = none ∧ handle = some { ResourceState := reply.1 } ∧ err = none) := by
    simp only [handle, err, reply]
    unfold NewPolicy
    simp only [hName, if_false]
    cases h : (ctx.reply ctx.calls (NewPolicy.call name a opts)).2 <;>
      simp [pulumi.Context.RegisterRemoteComponentResource, NewPolicy.call, Policy.zero] at h ⊢ <;>
      simp [h]
  rcases hCases with ⟨e, hr, hh, he⟩ | ⟨hr, hh, he⟩
  · refine ⟨?_, ?_, Or.inl ⟨hh, by simp [he]⟩⟩
    · intro e2 h2
      rw [hr] at h2
      cases h2
      exact ⟨hh, he⟩
    · intro h2
      rw [hr] at h2
      cases h2
  · refine ⟨?_, ?_, Or.inr ⟨by simp [hh], he⟩⟩
    · intro e2 h2
      rw [hr] at h2
      cases h2
    · intro _
      exact ⟨hh, he⟩

/-- Witness of C4: a rejecting host, whose error comes back as it is, and an
accepting host, whose resource comes back as a handle. -/
theorem NewPolicy_propagates_result_witness :
    argsNameOnly.Name ≠ none ∧
      (NewPolicy ctxRejecting "p" (some argsNameOnly) []).2 =
        (none, some (errors.New "duplicate resource")) ∧
      (NewPolicy ctxAccepting "p" (some argsNameOnly) []).2 =
        (some { ResourceState := { urn := "urn:p" } }, none) := by
  have hName : argsNameOnly.Name ≠ none := by decide
  have hRej := (NewPolicy_propagates_result ctxRejecting "p" argsNameOnly [] hName).1
    (errors.New "duplicate resource") rfl
  have hAcc := (NewPolicy_propagates_result ctxAccepting "p" argsNameOnly [] hName).2.1 rfl
  exact ⟨hName, Prod.ext hRej.1 hRej.2, Prod.ext hAcc.1 hAcc.2⟩

/-! ## Deferred lookups -/

/-- The function literal of `Index` on a resolved pair is the slice
expression. -/
theorem Index_func1_pair (s : List PolicyPtr) (i : Int) :
    PolicyArrayOutput.Index.func1 [.policySlice s, .int i] = sliceIndex s i := by
  rfl

/-- `Index` on a resolved pair resolves as the slice expression evaluates. -/
theorem Index_resolved_pair (o : PolicyArrayOutput) (idx : pulumi.IntInput)
    (s : List PolicyPtr) (i : Int) (ho : o.OutputState = .resolved s)
    (hi : idx.await = .resolved i) :
    (o.Index idx).OutputState = pulumi.ApplyT (.resolved [.policySlice s, .int i])
      PolicyArrayOutput.Index.func1 := by
  simp [PolicyArrayOutput.Index, ho, hi, Outcome.cast, pulumi.All, pulumi.All.join]

/-- C5.  When the sequence resolves to `s` and the index to `i` with
`0 <= i < len(s)`, the output of `Index` resolves to the element `s[i]`. -/
theorem Index_in_range (o : PolicyArrayOutput) (idx : pulumi.IntInput)
    (s : List PolicyPtr) (i : Int) (ho : o.OutputState = .resolved s)
    (hi : idx.await = .resolved i) (h0 : 0 ≤ i) (h1 : i < s.length) :
    (o.Index idx).OutputState = .resolved (s.get ⟨i.toNat, by omega⟩) := by
  have hRange : 0 ≤ i ∧ i.toNat < s.length := ⟨h0, by omega⟩
  rw [Index_resolved_pair o idx s i ho hi]
  simp [pulumi.ApplyT, Index_func1_pair, sliceIndex, hRange]

/-- Witness of C5: the sequence `[A, B]` at index `1` resolves to `B`. -/
theorem Index_in_range_witness :
    (0 : Int) ≤ 1 ∧ (1 : Int) < [handleA, handleB].length ∧
      (PolicyArrayOutput.Index ⟨.resolved [handleA, handleB]⟩ (.plain 1)).OutputState =
        .resolved handleB :=
  ⟨by decide, by decide,
    Index_in_range ⟨.resolved [handleA, handleB]⟩ (.plain 1) [handleA, handleB] 1 rfl rfl
      (by decide) (by decide)⟩

/-- A successful input registration leaves the output wrappers as they were. -/
theorem RegisterInputType_outputTypes (r r2 : pulumi.Registry) (interfaceType : Option GoType)
    (concreteType : GoType)
    (h : pulumi.RegisterInputType r interfaceType concreteType = .ok r2) :
    r2.outputTypes = r.outputTypes := by
  unfold pulumi.RegisterInputType at h
  split at h
  · cases h
  · split at h
    · cases h
    · cases h
      rfl

/-- A successful output registration puts its entry in front. -/
theorem RegisterOutputType_outputTypes (r r2 : pulumi.Registry) (wrapper : OutputType)
    (t : GoType) (h : pulumi.RegisterOutputType r wrapper (some t) = .ok r2) :
    r2.outputTypes = (t, wrapper) :: r.outputTypes := by
  unfold pulumi.RegisterOutputType at h
  split at h
  · cases h
  · rename_i t2 hSome
    cases hSome
    split at h
    · cases h
    · cases h
      rfl

/-- A step of `init` that returns was followed by the rest of `init`. -/
theorem Except_bind_ok {ε α β : Type} (x : Except ε α) (f : α → Except ε β) (b : β)
    (h : x >>= f = .ok b) : ∃ a, x = .ok a ∧ f a = .ok b := by
  cases x with
  | error e => cases h
  | ok a => exact ⟨a, rfl, h⟩

/-- After `init` has returned, the host wraps the result of an applier that
returns a `*Policy` in a `PolicyOutput`. -/
theorem init_outputType (r0 r : pulumi.Registry) (h : init r0 = .ok r) :
    pulumi.ApplyT.outputType r (.ptr Policy.type) = .PolicyOutput := by
  unfold init at h
  obtain ⟨r1, h1, h⟩ := Except_bind_ok _ _ _ h
  obtain ⟨r2, h2, h⟩ := Except_bind_ok _ _ _ h
  obtain ⟨r3, h3, h⟩ := Except_bind_ok _ _ _ h
  obtain ⟨r4, h4, h⟩ := Except_bind_ok _ _ _ h
  obtain ⟨r5, h5, h6⟩ := Except_bind_ok _ _ _ h
  have e4 := RegisterOutputType_outputTypes r3 r4 .PolicyOutput (.ptr Policy.type) h4
  have e5 := RegisterOutputType_outputTypes r4 r5 .PolicyArrayOutput
    (.slice (.ptr Policy.type)) h5
  have e6 := RegisterOutputType_outputTypes r5 r .PolicyMapOutput
    (.map .string (.ptr Policy.type)) h6
  have hSlice : (GoType.ptr Policy.type == GoType.slice (.ptr Policy.type)) = false := by
    decide
  have hMap : (GoType.ptr Policy.type == GoType.map .string (.ptr Policy.type)) = false := by
    decide
  simp [pulumi.ApplyT.outputType, e6, e5, e4, List.lookup, hSlice, hMap]

/-- C6.  When the sequence resolves to `s` and the index to `i` with `i < 0`
or `len(s) <= i`: the call of `Index`, in a process in which `init` has run,
does not panic but returns the `PolicyOutput` it has built; the host hands
the function literal the resolved pair, and the function literal applied to
that pair panics with "index out of range" instead of yielding a handle; so
the returned output never resolves to a handle. -/
theorem Index_out_of_range (o : PolicyArrayOutput) (idx : pulumi.IntInput)
    (s : List PolicyPtr) (i : Int) (ho : o.OutputState = .resolved s)
    (hi : idx.await = .resolved i) (hOut : i < 0 ∨ (s.length : Int) ≤ i) :
    (∀ r0 r : pulumi.Registry, init r0 = .ok r →
        PolicyArrayOutput.Index.call r o idx = .ok (o.Index idx)) ∧
      (o.Index idx).OutputState =
        pulumi.ApplyT (.resolved [.policySlice s, .int i]) PolicyArrayOutput.Index.func1 ∧
      PolicyArrayOutput.Index.func1 [.policySlice s, .int i] =
        .error (.indexOutOfRange i s.length) ∧
      ∀ p : PolicyPtr, (o.Index idx).OutputState ≠ .resolved p := by
  have hRange : ¬ (0 ≤ i ∧ i.toNat < s.length) := by omega
  have hFunc : PolicyArrayOutput.Index.func1 [.policySlice s, .int i] =
      .error (.indexOutOfRange i s.length) := by
    simp [Index_func1_pair, sliceIndex, hRange]
  have hPair := Index_resolved_pair o idx s i ho hi
  refine ⟨?_, hPair, hFunc, ?_⟩
  · intro r0 r hInit
    simp [PolicyArrayOutput.Index.call, init_outputType r0 r hInit]
  · intro p hp
    rw [hPair] at hp
    simp [pulumi.ApplyT, hFunc] at hp

/-- Witness of C6: on the sequence `[A, B]`, the index `2` past the end and
the negative index `-1`; and the index `0` on the empty sequence.  In each
case the call returns after `init` on an empty registry, the function literal
panics, and the output resolves to no handle, in particular not to `A` or
`B`. -/
theorem Index_out_of_range_witness :
    (((2 : Int) < 0 ∨ (([handleA, handleB] : List PolicyPtr).length : Int) ≤ 2) ∧
        (∃ r, init pulumi.Registry.empty = .ok r ∧
          PolicyArrayOutput.Index.call r ⟨.resolved [handleA, handleB]⟩ (.plain 2) =
            .ok (PolicyArrayOutput.Index ⟨.resolved [handleA, handleB]⟩ (.plain 2))) ∧
        PolicyArrayOutput.Index.func1 [.policySlice [handleA, handleB], .int 2] =
          .error (.indexOutOfRange 2 2) ∧
        (PolicyArrayOutput.Index ⟨.resolved [handleA, handleB]⟩ (.plain 2)).OutputState ≠
          .resolved handleB) ∧
      (((-1 : Int) < 0 ∨ (([handleA, handleB] : List PolicyPtr).length : Int) ≤ -1) ∧
        PolicyArrayOutput.Index.func1 [.policySlice [handleA, handleB], .int (-1)] =
          .error (.indexOutOfRange (-1) 2) ∧
        (PolicyArrayOutput.Index ⟨.resolved [handleA, handleB]⟩ (.plain (-1))).OutputState ≠
          .resolved handleA) ∧
      (((0 : Int) < 0 ∨ (([] : List PolicyPtr).length : Int) ≤ 0) ∧
        PolicyArrayOutput.Index.func1 [.policySlice [], .int 0] =
          .error (.indexOutOfRange 0 0) ∧
        (PolicyArrayOutput.Index ⟨.resolved []⟩ (.plain 0)).OutputState ≠ .resolved none) := by
  have hEnd := Index_out_of_range ⟨.resolved [handleA, handleB]⟩ (.plain 2)
    [handleA, handleB] 2 rfl rfl (by decide)
  have hNeg := Index_out_of_range ⟨.resolved [handleA, handleB]⟩ (.plain (-1))
    [handleA, handleB] (-1) rfl rfl (by decide)
  have hNil := Index_out_of_range ⟨.resolved []⟩ (.plain 0) [] 0 rfl rfl (by decide)
  have hInit : ∃ r, init pulumi.Registry.empty = .ok r := ⟨_, rfl⟩
  obtain ⟨r, hr⟩ := hInit
  exact ⟨⟨by decide, ⟨r, hr, hEnd.1 pulumi.Registry.empty r hr⟩, hEnd.2.2.1,
      hEnd.2.2.2 handleB⟩,
    ⟨by decide, hNeg.2.2.1, hNeg.2.2.2 handleA⟩,
    ⟨by decide, hNil.2.2.1, hNil.2.2.2 none⟩⟩

/-- In an entry list with pairwise distinct keys, the first entry found under
a key is the only one. -/
theorem lookup_of_mem {β : Type} (k : String) (v : β) :
    ∀ l : List (String × β), (l.map Prod.fst).Nodup → (k, v) ∈ l → l.lookup k = some v
  | [], _, hMem => by cases hMem
  | (k0, v0) :: rest, hNodup, hMem => by
    rw [List.map_cons, List.nodup_cons] at hNodup
    rcases List.mem_cons.mp hMem with hHead | hTail
    · cases hHead
      simp [List.lookup]
    · have hNe : k ≠ k0 := by
        intro hEq
        subst hEq
        exact hNodup.1 (List.mem_map.mpr ⟨(k, v), hTail, rfl⟩)
      have hBeq : (k == k0) = false := by simpa using hNe
      simp only [List.lookup, hBeq]
      exact lookup_of_mem k v rest hNodup.2 hTail

/-- A key that no entry carries is not found. -/
theorem lookup_of_not_mem {β : Type} (k : String) :
    ∀ l : List (String × β), k ∉ l.map Prod.fst → l.lookup k = none
  | [], _ => rfl
  | (k0, v0) :: rest, hNot => by
    rw [List.map_cons, List.mem_cons, not_or] at hNot
    have hBeq : (k == k0) = false := by simpa using hNot.1
    simp only [List.lookup, hBeq]
    exact lookup_of_not_mem k rest hNot.2

/-- `MapIndex` on a resolved pair resolves to the map expression. -/
theorem MapIndex_resolved_pair (o : PolicyMapOutput) (k : pulumi.StringInput)
    (m : GoMap PolicyPtr) (key : String) (ho : o.OutputState = .resolved m)
    (hk : k.await = .resolved key) :
    (o.MapIndex k).OutputState = .resolved (m.index key none) := by
  simp [PolicyMapOutput.MapIndex, ho, hk, Outcome.cast, pulumi.All, pulumi.All.join, pulumi.ApplyT,
    PolicyMapOutput.MapIndex.func1, sliceIndex, Value.assertPolicyMap, Value.assertString,
    bind, Except.bind, pure, Except.pure]

/-- C7.  When the mapping resolves to `m` and the key to `key`, the output of
`MapIndex` resolves to the handle stored under `key` if `m` has an entry for
it, and to the nil handle if it has none; in neither case does it end in a
fault. -/
theorem MapIndex_lookup (o : PolicyMapOutput) (k : pulumi.StringInput)
    (m : GoMap PolicyPtr) (key : String) (ho : o.OutputState = .resolved m)
    (hk : k.await = .resolved key) :
    (∀ v : PolicyPtr, (key, v) ∈ m.entries → (o.MapIndex k).OutputState = .resolved v) ∧
      (key ∉ m.entries.map Prod.fst → (o.MapIndex k).OutputState = .resolved none) ∧
      ∀ f : Fault, (o.MapIndex k).OutputState ≠ .fault f := by
  rw [MapIndex_resolved_pair o k m key ho hk]
  refine ⟨?_, ?_, ?_⟩
  · intro v hMem
    simp [GoMap.index, lookup_of_mem key v m.entries m.nodup hMem]
  · intro hNot
    simp [GoMap.index, lookup_of_not_mem key m.entries hNot]
  · intro f hf
    cases hf

/-- Witness of C7: in the mapping with the single entry `"x": A`, the key
`"x"` resolves to `A` and the key `"y"` to the nil handle. -/
theorem MapIndex_lookup_witness :
    (PolicyMapOutput.MapIndex ⟨.resolved mapXA⟩ (.plain "x")).OutputState = .resolved handleA ∧
      (PolicyMapOutput.MapIndex ⟨.resolved mapXA⟩ (.plain "y")).OutputState = .resolved none :=
  ⟨(MapIndex_lookup ⟨.resolved mapXA⟩ (.plain "x") mapXA "x" rfl rfl).1 handleA (by decide),
    (MapIndex_lookup ⟨.resolved mapXA⟩ (.plain "y") mapXA "y" rfl rfl).2.1 (by decide)⟩

/-! ## The wire record, conversions and element types -/

/-- C8.  The record `policyArgs` has exactly four fields; their tags are, in
order, "description", "name", "name_suffix" and "policy_statements", which
are pairwise distinct; the field tagged "name" is the only one of type
`string`, and the other three are of type `*string`; and
`PolicyArgs.ElementType`, on any receiver, reports the type `policyArgs`. -/
theorem policyArgs_wire_contract (recv : PolicyArgs) :
    policyArgs.fields.length = 4 ∧
      policyArgs.fields.map StructField.tag =
        ["description", "name", "name_suffix", "policy_statements"] ∧
      (policyArgs.fields.map StructField.tag).Nodup ∧
      (policyArgs.fields.filter (fun f => f.type = .string)).map StructField.tag = ["name"] ∧
      (policyArgs.fields.filter (fun f => f.type = .ptr .string)).map StructField.tag =
        ["description", "name_suffix", "policy_statements"] ∧
      PolicyArgs.ElementType recv = some policyArgs.type ∧
      policyArgs.type = .named "policyArgs" :=
  ⟨rfl, rfl, by decide, by decide, by decide, rfl, rfl⟩

/-- C9.  Each output adapter converts to itself: with or without a context,
`ToPolicyOutput`, `ToPolicyArrayOutput` and `ToPolicyMapOutput` return their
receiver; hence converting twice is converting once, and two contexts give
the same result. -/
theorem output_conversions_identity (o : PolicyOutput) (a : PolicyArrayOutput)
    (m : PolicyMapOutput) (ctx ctx2 : context.Context) :
    (o.ToPolicyOutput = o ∧ o.ToPolicyOutputWithContext ctx = o) ∧
      (a.ToPolicyArrayOutput = a ∧ a.ToPolicyArrayOutputWithContext ctx = a) ∧
      (m.ToPolicyMapOutput = m ∧ m.ToPolicyMapOutputWithContext ctx = m) ∧
      (o.ToPolicyOutput.ToPolicyOutput = o.ToPolicyOutput ∧
        a.ToPolicyArrayOutput.ToPolicyArrayOutput = a.ToPolicyArrayOutput ∧
        m.ToPolicyMapOutput.ToPolicyMapOutput = m.ToPolicyMapOutput) ∧
      ((o.ToPolicyOutputWithContext ctx).ToPolicyOutputWithContext ctx2 =
          o.ToPolicyOutputWithContext ctx ∧
        (a.ToPolicyArrayOutputWithContext ctx).ToPolicyArrayOutputWithContext ctx2 =
          a.ToPolicyArrayOutputWithContext ctx ∧
        (m.ToPolicyMapOutputWithContext ctx).ToPolicyMapOutputWithContext ctx2 =
          m.ToPolicyMapOutputWithContext ctx) ∧
      (o.ToPolicyOutputWithContext ctx = o.ToPolicyOutputWithContext ctx2 ∧
        a.ToPolicyArrayOutputWithContext ctx = a.ToPolicyArrayOutputWithContext ctx2 ∧
        m.ToPolicyMapOutputWithContext ctx = m.ToPolicyMapOutputWithContext ctx2) :=
  ⟨⟨rfl, rfl⟩, ⟨rfl, rfl⟩, ⟨rfl, rfl⟩, ⟨rfl, rfl, rfl⟩, ⟨rfl, rfl, rfl⟩, ⟨rfl, rfl, rfl⟩⟩

/-- C10.  On every receiver, the input adapter and the output adapter of a
family report the same element type: `*Policy` for the singular family,
`[]*Policy` for the sequence family and `map[string]*Policy` for the mapping
family; and these three types are pairwise different. -/
theorem ElementType_families (p : PolicyPtr) (po : PolicyOutput) (arr : PolicyArray)
    (ao : PolicyArrayOutput) (mp : PolicyMap) (mo : PolicyMapOutput) :
    (Policy.ElementType p = some (.ptr Policy.type) ∧
        PolicyOutput.ElementType po = some (.ptr Policy.type)) ∧
      (PolicyArray.ElementType arr = some (.slice (.ptr Policy.type)) ∧
        PolicyArrayOutput.ElementType ao = some (.slice (.ptr Policy.type))) ∧
      (PolicyMap.ElementType mp = some (.map .string (.ptr Policy.type)) ∧
        PolicyMapOutput.ElementType mo = some (.map .string (.ptr Policy.type))) ∧
      Policy.ElementType p ≠ PolicyArray.ElementType arr ∧
      Policy.ElementType p ≠ PolicyMap.ElementType mp ∧
      PolicyArray.ElementType arr ≠ PolicyMap.ElementType mp :=
  ⟨⟨rfl, rfl⟩, ⟨rfl, rfl⟩, ⟨rfl, rfl⟩,
    by simp [Policy.ElementType, PolicyArray.ElementType, reflect.TypeOfNilPtr, GoType.Elem],
    by simp [Policy.ElementType, PolicyMap.ElementType, reflect.TypeOfNilPtr, GoType.Elem],
    by simp [PolicyArray.ElementType, PolicyMap.ElementType, reflect.TypeOfNilPtr, GoType.Elem]⟩

end AwsIam


